import Mathlib

/-!
Verification of `flying_state_machines/classes.py` (the Transition / FSM
engine) against its natural-language specification.

Shallow embedding conventions:
* A Python state or event value (`Enum | str`) is a `PyVal`: an enumeration
  member is identified by its class name and underlying value, a plain
  string by its text.
* Python `float` probabilities are modelled as exact rationals `ℚ`; the
  claims under study concern comparisons and cumulative sums, not rounding.
* Python object identity is modelled by an explicit `objId : Nat` carried
  by each `Transition`; `Transition` defines `__hash__` over the identity
  triple but no `__eq__`, so `==` falls back to `object.__eq__`
  (reference identity), which `pyEq` models.
* The mutable hook list of a Transition lives in an explicit store
  (`Store := List (List Nat)`); a Transition holds an index `hooksRef`
  into it.  Hooks themselves are opaque callables, modelled by `Nat`
  identifiers; what an event hook returns is supplied by an oracle
  `ret : Nat → EventHookRet`, and each invocation the engine performs is
  recorded in a log so ordering and arguments can be stated.
* `random()` is modelled by passing the single uniform draw `choice : ℚ`
  as an explicit parameter of `fsmInput`.
* Fallible Python code (assert failures, attribute errors, registry
  lookups) is modelled with `Except PyErr`.
-/

/-- A Python `Enum | str` value: an enum member tagged with its class name
and underlying value, or a plain string. -/
inductive PyVal where
  | enum (cls : String) (val : Nat)
  | str (s : String)
deriving DecidableEq, Repr

/-- What an event-level hook call returns, as far as the engine inspects
it: the code tests `hook(event, self, data) is False`, so only "exactly
the boolean False" versus anything else matters. -/
inductive EventHookRet where
  | isFalse
  | notFalse
deriving DecidableEq, Repr

/-- Python exceptions raised by the modelled code paths:
`AssertionError` (failed `assert`), `AttributeError` (attribute access on
`None`), `KeyError` (missing registry entry in `unpack`). -/
inductive PyErr where
  | assertionError
  | attributeError
  | keyError
deriving DecidableEq, Repr

/-- The heap of Transition hook lists; a `Transition.hooksRef` indexes
into it. -/
abbrev Store : Type := List (List Nat)

/-- One rule of the machine (`Transition` in classes.py), with its Python
object identity (`objId`) and its hook list held by reference
(`hooksRef`) in a `Store`. -/
structure Transition where
  objId : Nat
  from_state : PyVal
  on_event : PyVal
  to_state : PyVal
  probability : ℚ
  hooksRef : Nat
deriving DecidableEq, Repr

/-- `Transition.__hash__`: `hash((self.from_state, self.to_state,
self.on_event))`.  Modelled as the triple itself (the Python hash is a
deterministic function of it). -/
def transitionHash (t : Transition) : PyVal × PyVal × PyVal :=
  (t.from_state, t.to_state, t.on_event)

/-- Python `==` on Transitions.  classes.py defines `__hash__` but no
`__eq__`, so equality is `object.__eq__`: reference identity. -/
def pyEq (a b : Transition) : Bool :=
  a.objId == b.objId

/-- Hash agreement, the first test CPython set containment performs. -/
def pyHashEq (a b : Transition) : Bool :=
  transitionHash a == transitionHash b

/-- CPython `t in s` for a `set` of Transitions: a member matches when its
hash agrees and it is the same object or compares equal — with no
`__eq__`, both reduce to identity. -/
def pyMem (t : Transition) (rules : List Transition) : Bool :=
  rules.any (fun r => pyHashEq r t && pyEq r t)

/-- A constructor argument that must be `Enum | str`: either a valid
state/event value or a value of some other Python type. -/
inductive StateArg where
  | sval (v : PyVal)
  | badType
deriving DecidableEq, Repr

/-- The `probability` constructor argument: a float or some other type. -/
inductive ProbArg where
  | flt (q : ℚ)
  | notFloat
deriving DecidableEq, Repr

/-- `Transition.__init__(from_state, on_event, to_state, probability,
hooks)`: asserts each of the three identifiers is `Enum` or `str` (in
source order: from_state, to_state, on_event) and that probability is a
float; hook callability always holds in this model (hooks are opaque
ids).  No range check is performed on `probability`. -/
def transitionInit (objId : Nat) (from_state on_event to_state : StateArg)
    (probability : ProbArg) (hooksRef : Nat) : Except PyErr Transition :=
  match from_state with
  | .badType => .error .assertionError
  | .sval f =>
    match to_state with
    | .badType => .error .assertionError
    | .sval t =>
      match on_event with
      | .badType => .error .assertionError
      | .sval e =>
        match probability with
        | .notFloat => .error .assertionError
        | .flt q =>
          .ok { objId := objId, from_state := f, on_event := e,
                to_state := t, probability := q, hooksRef := hooksRef }

/-- The store cell of the module-level default `hooks` list: Python
evaluates the default argument `hooks = []` once, at function definition
time, so every constructor call that omits `hooks` shares this one list
object. -/
def defaultHooksRef : Nat := 0

/-- Constructor call with `hooks` omitted: the Transition receives the
shared default list cell. -/
def transitionInitDefaultHooks (objId : Nat)
    (from_state on_event to_state : StateArg) (probability : ProbArg) :
    Except PyErr Transition :=
  transitionInit objId from_state on_event to_state probability defaultHooksRef

/-- Constructor call passing its own fresh `hooks` list: a new store cell
is allocated for it. -/
def transitionInitOwnHooks (store : Store) (objId : Nat)
    (from_state on_event to_state : StateArg) (probability : ProbArg)
    (hooks : List Nat) : Except PyErr Transition × Store :=
  (transitionInit objId from_state on_event to_state probability store.length,
   store ++ [hooks])

/-- `Transition.add_hook`: appends the hook to the Transition's list. -/
def addHook (store : Store) (t : Transition) (h : Nat) : Store :=
  store.set t.hooksRef ((store.getD t.hooksRef []) ++ [h])

/-- `Transition.remove_hook`: removes the first occurrence if present,
no-op otherwise (as `list.remove` guarded by `if hook in self.hooks`). -/
def removeHook (store : Store) (t : Transition) (h : Nat) : Store :=
  store.set t.hooksRef ((store.getD t.hooksRef []).erase h)

/-- One hook invocation performed by `Transition.trigger`: which hook was
called, on which Transition object, with what data. -/
structure TriggerCall where
  hook : Nat
  tid : Nat
  data : PyVal
deriving DecidableEq, Repr

/-- `Transition.trigger(data)`: calls every hook in the Transition's list,
in order, with `(self, data)`. -/
def trigger (store : Store) (t : Transition) (data : PyVal) : List TriggerCall :=
  (store.getD t.hooksRef []).map (fun h => ⟨h, t.objId, data⟩)

/-- The FSM instance state (`FSM` in classes.py).  `rules` is the rule
set, kept in its (arbitrary but fixed) set-iteration order; `current`,
`previous` and `next` are nullable state slots; `event_hooks` is the
`_event_hooks` dict as an association list in key-insertion order.  The
`_valid_transitions` index is a pure function of `rules` (built once from
them and immutable), so it is recomputed by `candidatesKey` rather than
stored. -/
structure FSM where
  rules : List Transition
  initial_state : Option PyVal
  current : Option PyVal
  previous : Option PyVal
  next : Option PyVal
  event_hooks : List (PyVal × List Nat)
deriving DecidableEq, Repr

/-- The list `_valid_transitions[st][ev]`: the rules with this origin and
event, in rule-set iteration order (they are appended in that order when
the index is built). -/
def candidatesKey (rules : List Transition) (st ev : PyVal) : List Transition :=
  rules.filter (fun r => r.from_state == st && r.on_event == ev)

/-- Candidates for a nullable current state: a `None` current matches no
index key, yielding no candidates. -/
def candidates (rules : List Transition) (cur : Option PyVal) (ev : PyVal) :
    List Transition :=
  match cur with
  | some st => candidatesKey rules st ev
  | none => []

/-- One member of the `rules` set. -/
inductive RuleMember where
  | tn (t : Transition)
  | notATransition
deriving DecidableEq, Repr

/-- The `rules` class attribute as `__init__` finds it: absent, present
but not a `set`, or a set of members each of which may or may not be a
Transition. -/
inductive RulesAttr where
  | missing
  | notASet
  | aSet (members : List RuleMember)
deriving DecidableEq, Repr

/-- The `initial_state` class attribute: an `Enum | str` value or
anything else (including absent, which also fails the isinstance
check path fatally). -/
inductive InitialAttr where
  | sval (v : PyVal)
  | invalid
deriving DecidableEq, Repr

/-- The raw class attributes `FSM.__init__` validates. -/
structure RawFSM where
  rules : RulesAttr
  initial_state : InitialAttr
deriving DecidableEq, Repr

/-- The per-member `isinstance(rule, Transition)` assert performed while
building the index. -/
def checkMembers : List RuleMember → Except PyErr (List Transition)
  | [] => .ok []
  | .notATransition :: _ => .error .assertionError
  | .tn t :: rest =>
    match checkMembers rest with
    | .error e => .error e
    | .ok ts => .ok (t :: ts)

/-- The construction-time invariant: for every `(from_state, on_event)`
key of the index, the candidate probabilities sum to at most 1.0
(checked per key; iterating over every rule's own key checks each key at
least once, which is equivalent). -/
def probSumOk (ts : List Transition) : Bool :=
  ts.all (fun r =>
    decide (((candidatesKey ts r.from_state r.on_event).map
      (fun t => t.probability)).sum ≤ 1))

/-- `FSM.__init__`: asserts `rules` exists and is a set, every member is
a Transition, every index key's probability sum is ≤ 1.0, and
`initial_state` is `Enum` or `str`; then sets `current = initial_state`,
`previous = None`, `next = None`, with empty event-hook registry. -/
def fsmInit (raw : RawFSM) : Except PyErr FSM :=
  match raw.rules with
  | .missing => .error .assertionError
  | .notASet => .error .assertionError
  | .aSet members =>
    match checkMembers members with
    | .error e => .error e
    | .ok ts =>
      if probSumOk ts then
        match raw.initial_state with
        | .invalid => .error .assertionError
        | .sval v =>
          .ok { rules := ts, initial_state := some v, current := some v,
                previous := none, next := none, event_hooks := [] }
      else .error .assertionError

/-- `event in self._event_hooks` / `self._event_hooks[event]` on the
association list. -/
def lookupHooks (l : List (PyVal × List Nat)) (e : PyVal) : Option (List Nat) :=
  match l.find? (fun p => p.1 == e) with
  | some p => some p.2
  | none => none

/-- `FSM.add_event_hook`: create the key's list if absent, then append. -/
def addEventHook (l : List (PyVal × List Nat)) (e : PyVal) (h : Nat) :
    List (PyVal × List Nat) :=
  match lookupHooks l e with
  | some _ => l.map (fun p => if p.1 == e then (p.1, p.2 ++ [h]) else p)
  | none => l ++ [(e, [h])]

/-- `FSM.add_transition_hook`: asserts `transition in self.rules` (set
containment, hence hash agreement plus identity, see `pyMem`), then
delegates to the Transition's own `add_hook`. -/
def addTransitionHook (store : Store) (fsm : FSM) (t : Transition) (h : Nat) :
    Except PyErr Store :=
  if pyMem t fsm.rules then .ok (addHook store t h) else .error .assertionError

/-- `FSM.remove_transition_hook`: same containment assert, then
`remove_hook`. -/
def removeTransitionHook (store : Store) (fsm : FSM) (t : Transition) (h : Nat) :
    Except PyErr Store :=
  if pyMem t fsm.rules then .ok (removeHook store t h) else .error .assertionError

/-- `FSM.would(event)`: the candidates registered for
`(current, event)`, or empty. -/
def wouldFSM (fsm : FSM) (event : PyVal) : List Transition :=
  candidates fsm.rules fsm.current event

/-- `FSM.can(event)`. -/
def canFSM (fsm : FSM) (event : PyVal) : Bool :=
  (wouldFSM fsm event).length > 0

/-- Snapshot of the machine's mutable state slots `(current, previous,
next)` at the moment a hook is invoked: hooks receive the FSM itself by
reference, so this is what they observe. -/
def snap (fsm : FSM) : Option PyVal × Option PyVal × Option PyVal :=
  (fsm.current, fsm.previous, fsm.next)

/-- One hook invocation performed during `input`, with the machine
snapshot at invocation time. -/
inductive LogEntry where
  | eventHook (h : Nat) (event : PyVal)
      (machine : Option PyVal × Option PyVal × Option PyVal) (data : PyVal)
  | transitionHook (h : Nat) (tid : Nat)
      (machine : Option PyVal × Option PyVal × Option PyVal) (data : PyVal)
deriving DecidableEq, Repr

/-- Result of a non-raising `input` call: the returned state, the updated
machine, and the hook invocations in order. -/
structure InputResult where
  ret : Option PyVal
  fsm : FSM
  log : List LogEntry
deriving DecidableEq, Repr

/-- The cumulative probability breakpoints `input` builds over the
candidates in stored order, starting from accumulator `acc`. -/
def cumBreaks (acc : ℚ) : List Transition → List (ℚ × Transition)
  | [] => []
  | t :: rest => (acc + t.probability, t) :: cumBreaks (acc + t.probability) rest

/-- The selection loop: the first candidate whose cumulative breakpoint
strictly exceeds the draw (`if choice < probability: ... break`), if
any. -/
def selectCum (choice : ℚ) : List (ℚ × Transition) → Option Transition
  | [] => none
  | (p, t) :: rest => if choice < p then some t else selectCum choice rest

/-- The commit step of `input` (`if transition:` onward): set
`previous = current`, `current = next`, clear `next`, then run the
selected Transition's `trigger(data)`; if no Transition was selected,
return `current` unchanged. -/
def commitStep (store : Store) (transition : Option Transition) (fsm1 : FSM)
    (log : List LogEntry) (data : PyVal) : InputResult :=
  match transition with
  | some t =>
    let fsm2 : FSM :=
      { fsm1 with previous := fsm1.current, current := fsm1.next, next := none }
    ⟨fsm2.current, fsm2,
      log ++ (trigger store t data).map
        (fun c => LogEntry.transitionHook c.hook c.tid (snap fsm2) c.data)⟩
  | none => ⟨fsm1.current, fsm1, log⟩

/-- `FSM.input(event, data)`.  `choice` is the single uniform draw
`random()` performs when more than one candidate exists; `ret` tells
what each registered event hook call returns.  Branches, in source
order: one candidate selects it and sets `next`; several candidates
build cumulative breakpoints and select by the draw — if the loop falls
through with nothing selected, `transition` is still `None` and
`transition.to_state` raises `AttributeError`; then every event hook for
the event runs (all of them, even after one returns False) and a False
return cancels, returning `current` with no other mutation; finally the
commit step. -/
def fsmInput (store : Store) (fsm : FSM) (event data : PyVal) (choice : ℚ)
    (ret : Nat → EventHookRet) : Except PyErr InputResult :=
  let sel : Except PyErr (Option Transition × FSM) :=
    match wouldFSM fsm event with
    | [] => .ok (none, fsm)
    | [t] => .ok (some t, { fsm with next := some t.to_state })
    | t1 :: t2 :: rest =>
      match selectCum choice (cumBreaks 0 (t1 :: t2 :: rest)) with
      | some t => .ok (some t, { fsm with next := some t.to_state })
      | none => .error .attributeError
  match sel with
  | .error e => .error e
  | .ok (transition, fsm1) =>
    match lookupHooks fsm1.event_hooks event with
    | some hooks =>
      let log := hooks.map (fun h => LogEntry.eventHook h event (snap fsm1) data)
      if hooks.any (fun h => ret h == EventHookRet.isFalse) then
        .ok ⟨fsm1.current, fsm1, log⟩
      else
        .ok (commitStep store transition fsm1 log data)
    | none => .ok (commitStep store transition fsm1 [] data)

/-- A serialized state/event slot, as `pack` writes it: an Enum becomes
the pair `[type name, value]`, a plain string stays a string, `None`
stays `None`.  The byte-level encoding of this structure is delegated to
packify, an external collaborator treated as a faithful
encoder/decoder. -/
inductive PackedVal where
  | tagged (cls : String) (v : Nat)
  | strv (s : String)
  | nonev
deriving DecidableEq, Repr

/-- The enum-tagging step shared by `Transition.pack` and `FSM.pack`. -/
def packVal : Option PyVal → PackedVal
  | none => .nonev
  | some (.enum c v) => .tagged c v
  | some (.str s) => .strv s

/-- The decode side: a tagged pair is reconstructed through the
dependency registry (`dependencies[classname]` raises `KeyError` when
the class was not supplied; `enumclass(value)` then rebuilds the
member).  The registry is modelled by which class names it contains. -/
def unpackVal (reg : String → Bool) : PackedVal → Except PyErr (Option PyVal)
  | .nonev => .ok none
  | .strv s => .ok (some (.str s))
  | .tagged c v => if reg c then .ok (some (.enum c v)) else .error .keyError

/-- `Transition.pack`: the record `{from_state, to_state, on_event,
probability}` with enum fields tagged.  Hooks are not written. -/
structure PackedTransition where
  from_state : PackedVal
  to_state : PackedVal
  on_event : PackedVal
  probability : ℚ
deriving DecidableEq, Repr

/-- Serialize one Transition. -/
def transitionPack (t : Transition) : PackedTransition :=
  ⟨packVal (some t.from_state), packVal (some t.to_state),
   packVal (some t.on_event), t.probability⟩

/-- `FSM.pack`: the packed rule set plus the four tagged state slots.
No hook registry of either kind is written. -/
structure PackedFSM where
  rules : List PackedTransition
  initial_state : PackedVal
  current : PackedVal
  previous : PackedVal
  next : PackedVal
deriving DecidableEq, Repr

/-- Serialize an FSM. -/
def fsmPack (fsm : FSM) : PackedFSM :=
  ⟨fsm.rules.map transitionPack, packVal fsm.initial_state,
   packVal fsm.current, packVal fsm.previous, packVal fsm.next⟩

/-- Attach one caller-supplied hook list to one Transition during
`unpack`, through `add_transition_hook` (so the rule-set containment
assert applies). -/
def attachAll (fsm : FSM) (t : Transition) : Store → List Nat → Except PyErr Store
  | store, [] => .ok store
  | store, h :: hs =>
    match addTransitionHook store fsm t h with
    | .error e => .error e
    | .ok s => attachAll fsm t s hs

/-- The `for transition, hooks in transition_hooks.items()` loop of
`FSM.unpack`. -/
def attachTransitionHooks (fsm : FSM) :
    Store → List (Transition × List Nat) → Except PyErr Store
  | store, [] => .ok store
  | store, (t, hooks) :: rest =>
    match attachAll fsm t store hooks with
    | .error e => .error e
    | .ok s => attachTransitionHooks fsm s rest

/-- The `for event, hooks in event_hooks.items()` loop of `FSM.unpack`:
each hook goes through `add_event_hook`. -/
def attachEventHooks :
    List (PyVal × List Nat) → List (PyVal × List Nat) → List (PyVal × List Nat)
  | reg, [] => reg
  | reg, (e, hooks) :: rest =>
    attachEventHooks (hooks.foldl (fun acc h => addEventHook acc e h) reg) rest

/-- `FSM.unpack(data, inject, transition_hooks, event_hooks)`: decodes the
byte form, constructs a fresh machine of the concrete class (`cls()`,
i.e. `fsmInit` on the class attributes `raw`), attaches the
caller-supplied transition hooks, restores the four state slots from the
decoded data through the registry, then attaches the caller-supplied
event hooks.  The decoded `rules` entry of `data` is never consulted. -/
def fsmUnpack (raw : RawFSM) (d : PackedFSM) (reg : String → Bool)
    (store : Store) (transition_hooks : List (Transition × List Nat))
    (event_hooks : List (PyVal × List Nat)) : Except PyErr (FSM × Store) := do
  let fsm0 ← fsmInit raw
  let store1 ← attachTransitionHooks fsm0 store transition_hooks
  let initial ← unpackVal reg d.initial_state
  let current ← unpackVal reg d.current
  let previous ← unpackVal reg d.previous
  let next ← unpackVal reg d.next
  let fsm1 : FSM :=
    { fsm0 with initial_state := initial, current := current,
                previous := previous, next := next }
  let fsm2 : FSM :=
    { fsm1 with event_hooks := attachEventHooks fsm1.event_hooks event_hooks }
  .ok (fsm2, store1)

/-- Whether an `Except` computation failed. -/
def isErr {α : Type} : Except PyErr α → Bool
  | .error _ => true
  | .ok _ => false

/-- The registry covers a state slot: if the slot holds an enum member,
the registry knows its class ("a correct enumeration registry supplied
for every enumerated value present"). -/
def regOk (reg : String → Bool) : Option PyVal → Prop
  | some (.enum c _) => reg c = true
  | _ => True

/-- The tentative destination `input` stores in `next` before the event
hooks run: the single candidate's destination, the draw winner's
destination for several candidates, or the slot's prior content when
there is no candidate (the multi-candidate miss, which raises before
the hooks, yields `none` here but is irrelevant to cancellation). -/
def tentativeNext (fsm : FSM) (event : PyVal) (choice : ℚ) : Option PyVal :=
  match wouldFSM fsm event with
  | [] => fsm.next
  | [t] => some t.to_state
  | t1 :: t2 :: rest =>
    match selectCum choice (cumBreaks 0 (t1 :: t2 :: rest)) with
    | some t => some t.to_state
    | none => none

/-- `checkMembers` succeeds exactly on all-Transition member lists,
returning them in order. -/
theorem checkMembers_map_tn (ts : List Transition) :
    checkMembers (ts.map RuleMember.tn) = .ok ts := by
  induction ts with
  | nil => rfl
  | cons t rest ih => simp [checkMembers, ih]

/-- `checkMembers` fails as soon as a non-Transition member appears. -/
theorem checkMembers_err_of_bad (members : List RuleMember)
    (hbad : RuleMember.notATransition ∈ members) :
    isErr (checkMembers members) = true := by
  induction members with
  | nil => cases hbad
  | cons m rest ih =>
    cases m with
    | notATransition => rfl
    | tn t =>
      have hmem : RuleMember.notATransition ∈ rest := by
        cases hbad with
        | tail _ h => exact h
      have := ih hmem
      unfold checkMembers
      cases hck : checkMembers rest with
      | error e => rfl
      | ok ts => rw [hck] at this; exact absurd this (by simp [isErr])

/-- C2 (counterexample): two distinct Transition objects sharing the
triple ("A", "B", "E") with different probabilities hash identically but
are NOT equal — `Transition` defines `__hash__` only, so `==` is object
identity, refuting "the two are equal". -/
theorem transition_same_triple_not_equal :
    transitionHash
        { objId := 0, from_state := PyVal.str "A", on_event := PyVal.str "E",
          to_state := PyVal.str "B", probability := 1, hooksRef := 0 } =
      transitionHash
        { objId := 1, from_state := PyVal.str "A", on_event := PyVal.str "E",
          to_state := PyVal.str "B", probability := 1/2, hooksRef := 1 } ∧
    pyEq
        { objId := 0, from_state := PyVal.str "A", on_event := PyVal.str "E",
          to_state := PyVal.str "B", probability := 1, hooksRef := 0 }
        { objId := 1, from_state := PyVal.str "A", on_event := PyVal.str "E",
          to_state := PyVal.str "B", probability := 1/2, hooksRef := 1 } = false := by
  constructor
  · rfl
  · rfl

/-- C2 (amended): hashing is determined solely by the
`(from_state, to_state, on_event)` triple — Transitions with equal
triples hash identically whatever their probability or hooks — but
equality is Python's default reference identity, since no `__eq__` is
defined; two distinct objects with the same triple are unequal. -/
theorem transition_hash_by_triple_eq_by_identity (t1 t2 : Transition) :
    (transitionHash t1 = transitionHash t2 ↔
      t1.from_state = t2.from_state ∧ t1.to_state = t2.to_state ∧
        t1.on_event = t2.on_event)
  ∧ (pyEq t1 t2 = true ↔ t1.objId = t2.objId) := by
  constructor
  · unfold transitionHash
    simp [Prod.ext_iff]
  · simp [pyEq]

/-- C6 (counterexample): the Transition constructor accepts
`probability = 0.0`, a value outside `(0, 1]`, refuting "construction
fails for values outside (0, 1]". -/
theorem transition_accepts_zero_probability :
    transitionInit 0 (.sval (PyVal.str "A")) (.sval (PyVal.str "E"))
        (.sval (PyVal.str "B")) (.flt 0) 0 =
      .ok { objId := 0, from_state := PyVal.str "A", on_event := PyVal.str "E",
            to_state := PyVal.str "B", probability := 0, hooksRef := 0 } := by
  rfl

/-- C6 (amended): Transition construction requires `probability` to be a
float and fails otherwise, but enforces no range at all: every rational
value — zero, negative, above one — is accepted and stored unchanged.
The `(0, 1]` invariant of the spec is not checked by the constructor
(the only related check is the FSM-level per-(origin, event) sum). -/
theorem transition_probability_type_checked_only (objId : Nat)
    (f e t : PyVal) (q : ℚ) (hooksRef : Nat) :
    transitionInit objId (.sval f) (.sval e) (.sval t) (.flt q) hooksRef =
      .ok { objId := objId, from_state := f, on_event := e, to_state := t,
            probability := q, hooksRef := hooksRef }
  ∧ transitionInit objId (.sval f) (.sval e) (.sval t) .notFloat hooksRef =
      .error .assertionError := by
  constructor
  · rfl
  · rfl

/-- C5 (counterexample): FSM construction succeeds on an EMPTY rule set
(with a valid initial state), refuting "construction fails whenever
rules is empty / requires a non-empty set of Transitions". -/
theorem fsm_accepts_empty_rules :
    fsmInit { rules := RulesAttr.aSet [], initial_state := .sval (PyVal.str "A") } =
      .ok { rules := [], initial_state := some (PyVal.str "A"),
            current := some (PyVal.str "A"), previous := none, next := none,
            event_hooks := [] } := by
  rfl

/-- C5 (amended): FSM construction fails when `rules` is missing or not a
set, when any member is not a Transition, when some (origin, event)
probability sum exceeds 1.0, or when `initial_state` is not an
enumeration value or plain string; emptiness of the rule set is NOT
checked.  On success, `current = initial_state`, `previous = null`,
`next = null`. -/
theorem fsm_construction_validation (raw : RawFSM) :
    ((raw.rules = RulesAttr.missing ∨ raw.rules = RulesAttr.notASet) →
       isErr (fsmInit raw) = true)
  ∧ (∀ members, raw.rules = RulesAttr.aSet members →
       RuleMember.notATransition ∈ members → isErr (fsmInit raw) = true)
  ∧ (∀ ts : List Transition, raw.rules = RulesAttr.aSet (ts.map RuleMember.tn) →
       probSumOk ts = false → isErr (fsmInit raw) = true)
  ∧ (∀ ts : List Transition, raw.rules = RulesAttr.aSet (ts.map RuleMember.tn) →
       raw.initial_state = InitialAttr.invalid → isErr (fsmInit raw) = true)
  ∧ (∀ (ts : List Transition) (v : PyVal),
       raw.rules = RulesAttr.aSet (ts.map RuleMember.tn) →
       probSumOk ts = true → raw.initial_state = InitialAttr.sval v →
       fsmInit raw = .ok { rules := ts, initial_state := some v,
                           current := some v, previous := none, next := none,
                           event_hooks := [] }) := by
  refine ⟨?_, ?_, ?_, ?_, ?_⟩
  · rintro (h | h) <;> simp [fsmInit, h, isErr]
  · intro members hm hbad
    have hbadck := checkMembers_err_of_bad members hbad
    cases hck : checkMembers members with
    | error e => simp [fsmInit, hm, hck, isErr]
    | ok ts => rw [hck] at hbadck; exact absurd hbadck (by simp [isErr])
  · intro ts hm hsum
    simp [fsmInit, hm, checkMembers_map_tn, hsum, isErr]
  · intro ts hm hinit
    cases hps : probSumOk ts <;>
      simp [fsmInit, hm, checkMembers_map_tn, hinit, hps, isErr]
  · intro ts v hm hsum hinit
    simp [fsmInit, hm, checkMembers_map_tn, hsum, hinit]

/-- C5 (witness): the validation theorem instantiated at a concrete
class: one rule from "A" to "B" on "E", initial state "A". -/
theorem fsm_construction_validation_witness :
    fsmInit { rules := RulesAttr.aSet [RuleMember.tn
                  { objId := 0, from_state := PyVal.str "A",
                    on_event := PyVal.str "E", to_state := PyVal.str "B",
                    probability := 1, hooksRef := 0 }],
              initial_state := .sval (PyVal.str "A") } =
      .ok { rules := [{ objId := 0, from_state := PyVal.str "A",
                        on_event := PyVal.str "E", to_state := PyVal.str "B",
                        probability := 1, hooksRef := 0 }],
            initial_state := some (PyVal.str "A"),
            current := some (PyVal.str "A"), previous := none, next := none,
            event_hooks := [] } :=
  (fsm_construction_validation _).2.2.2.2
    [{ objId := 0, from_state := PyVal.str "A", on_event := PyVal.str "E",
       to_state := PyVal.str "B", probability := 1, hooksRef := 0 }]
    (PyVal.str "A") rfl (by simp [probSumOk, candidatesKey]) rfl

/-- C7 (counterexample): a freshly constructed Transition with the very
same (from_state, to_state, on_event) triple as the machine's only rule
but a different object identity is REJECTED by `add_transition_hook`:
with `__hash__` defined but no `__eq__`, set containment falls back to
reference identity, refuting "matched by that triple, not by object
reference, so a freshly constructed Transition with the same triple is
accepted". -/
theorem add_transition_hook_rejects_fresh_object :
    isErr (addTransitionHook [[]]
      { rules := [{ objId := 0, from_state := PyVal.str "A",
                    on_event := PyVal.str "E", to_state := PyVal.str "B",
                    probability := 1, hooksRef := 0 }],
        initial_state := some (PyVal.str "A"),
        current := some (PyVal.str "A"), previous := none, next := none,
        event_hooks := [] }
      { objId := 1, from_state := PyVal.str "A", on_event := PyVal.str "E",
        to_state := PyVal.str "B", probability := 1, hooksRef := 0 }
      5) = true := by
  decide

/-- C7 (amended): `add_transition_hook` / `remove_transition_hook`
succeed exactly when the given Transition OBJECT is a member of the rule
set — the triple-based hash narrows the candidate bucket but the final
match is reference identity, since no `__eq__` is defined — and then
delegate to the Transition's own `add_hook` / `remove_hook`; they fail
whenever no rule is that very object, even one sharing the triple. -/
theorem transition_hook_registration_by_identity (store : Store) (fsm : FSM)
    (t : Transition) (h : Nat) :
    ((∃ r ∈ fsm.rules, pyHashEq r t = true ∧ pyEq r t = true) →
       addTransitionHook store fsm t h = .ok (addHook store t h) ∧
       removeTransitionHook store fsm t h = .ok (removeHook store t h))
  ∧ ((∀ r ∈ fsm.rules, pyEq r t = false) →
       isErr (addTransitionHook store fsm t h) = true ∧
       isErr (removeTransitionHook store fsm t h) = true) := by
  constructor
  · rintro ⟨r, hr, hh, he⟩
    have hmem : pyMem t fsm.rules = true := by
      unfold pyMem
      rw [List.any_eq_true]
      exact ⟨r, hr, by simp [hh, he]⟩
    simp [addTransitionHook, removeTransitionHook, hmem]
  · intro hall
    have hmem : pyMem t fsm.rules = false := by
      unfold pyMem
      rw [List.any_eq_false]
      intro r hr
      simp [hall r hr]
    simp [addTransitionHook, removeTransitionHook, hmem, isErr]

/-- C7 (witness): attaching a hook through the rule object itself
succeeds and delegates to `add_hook`. -/
theorem transition_hook_registration_by_identity_witness :
    addTransitionHook [[]]
      { rules := [{ objId := 0, from_state := PyVal.str "A",
                    on_event := PyVal.str "E", to_state := PyVal.str "B",
                    probability := 1, hooksRef := 0 }],
        initial_state := some (PyVal.str "A"),
        current := some (PyVal.str "A"), previous := none, next := none,
        event_hooks := [] }
      { objId := 0, from_state := PyVal.str "A", on_event := PyVal.str "E",
        to_state := PyVal.str "B", probability := 1, hooksRef := 0 }
      5 =
    .ok (addHook [[]]
      { objId := 0, from_state := PyVal.str "A", on_event := PyVal.str "E",
        to_state := PyVal.str "B", probability := 1, hooksRef := 0 }
      5) :=
  ((transition_hook_registration_by_identity [[]]
      { rules := [{ objId := 0, from_state := PyVal.str "A",
                    on_event := PyVal.str "E", to_state := PyVal.str "B",
                    probability := 1, hooksRef := 0 }],
        initial_state := some (PyVal.str "A"),
        current := some (PyVal.str "A"), previous := none, next := none,
        event_hooks := [] }
      { objId := 0, from_state := PyVal.str "A", on_event := PyVal.str "E",
        to_state := PyVal.str "B", probability := 1, hooksRef := 0 }
      5).1 (by decide)).1

/-- Triggering through a Transition whose hook list cell was just
extended through another Transition on the SAME cell sees the new hook. -/
theorem trigger_addHook_same_cell (store : Store) (t1 t2 : Transition)
    (h : Nat) (data : PyVal) (he : t1.hooksRef = t2.hooksRef)
    (hl : t2.hooksRef < store.length) :
    trigger (addHook store t1 h) t2 data =
      trigger store t2 data ++ [⟨h, t2.objId, data⟩] := by
  unfold trigger addHook
  rw [he, List.getD_eq_getElem?_getD,
      List.getElem?_set_eq_of_lt _ hl]
  simp [List.getD_eq_getElem?_getD]

/-- Triggering through a Transition holding a DIFFERENT cell is
unaffected by the addition. -/
theorem trigger_addHook_other_cell (store : Store) (t1 t2 : Transition)
    (h : Nat) (data : PyVal) (hne : t1.hooksRef ≠ t2.hooksRef) :
    trigger (addHook store t1 h) t2 data = trigger store t2 data := by
  unfold trigger addHook
  rw [List.getD_eq_getElem?_getD, List.getElem?_set_ne hne,
      ← List.getD_eq_getElem?_getD]

/-- C9 (confirmed): every Transition constructed with the `hooks`
argument omitted shares one underlying list — the mutable default
argument, evaluated once at definition time — so a hook added through
one such Transition fires when ANOTHER one triggers, and it is invoked
with that other Transition; hook lists are isolated when each
constructor call passes its own list (fresh cells are allocated). -/
theorem shared_default_hooks_list (store : Store) (i1 i2 : Nat)
    (f1 e1 s1 f2 e2 s2 : PyVal) (p1 p2 : ℚ) (t1 t2 : Transition)
    (h : Nat) (data : PyVal)
    (h1 : transitionInitDefaultHooks i1 (.sval f1) (.sval e1) (.sval s1)
            (.flt p1) = .ok t1)
    (h2 : transitionInitDefaultHooks i2 (.sval f2) (.sval e2) (.sval s2)
            (.flt p2) = .ok t2)
    (hs : defaultHooksRef < store.length) :
    trigger (addHook store t1 h) t2 data =
      trigger store t2 data ++ [⟨h, i2, data⟩]
  ∧ (∀ (store0 : Store) (l1 l2 : List Nat) (u1 u2 : Transition),
       (transitionInitOwnHooks store0 i1 (.sval f1) (.sval e1) (.sval s1)
          (.flt p1) l1).1 = .ok u1 →
       (transitionInitOwnHooks
          (transitionInitOwnHooks store0 i1 (.sval f1) (.sval e1) (.sval s1)
            (.flt p1) l1).2
          i2 (.sval f2) (.sval e2) (.sval s2) (.flt p2) l2).1 = .ok u2 →
       u1.hooksRef ≠ u2.hooksRef ∧
       ∀ s : Store, trigger (addHook s u1 h) u2 data = trigger s u2 data) := by
  simp only [transitionInitDefaultHooks, transitionInit, Except.ok.injEq] at h1 h2
  constructor
  · rw [trigger_addHook_same_cell store t1 t2 h data]
    · rw [← h2]
    · rw [← h1, ← h2]
    · rw [← h2]
      exact hs
  · intro store0 l1 l2 u1 u2 hu1 hu2
    simp only [transitionInitOwnHooks, transitionInit, Except.ok.injEq] at hu1 hu2
    have hne : u1.hooksRef ≠ u2.hooksRef := by
      rw [← hu1, ← hu2]
      simp
    exact ⟨hne, fun s => trigger_addHook_other_cell s u1 u2 h data hne⟩

/-- C9 (witness): two concrete default-constructed Transitions; hook 9
added through the first fires on triggering the second, invoked with the
second Transition's identity. -/
theorem shared_default_hooks_list_witness :
    trigger (addHook [[]]
        { objId := 0, from_state := PyVal.str "A", on_event := PyVal.str "E",
          to_state := PyVal.str "B", probability := 1,
          hooksRef := defaultHooksRef }
        9)
      { objId := 1, from_state := PyVal.str "C", on_event := PyVal.str "F",
        to_state := PyVal.str "D", probability := 1,
        hooksRef := defaultHooksRef }
      (PyVal.str "d") =
    trigger [[]]
      { objId := 1, from_state := PyVal.str "C", on_event := PyVal.str "F",
        to_state := PyVal.str "D", probability := 1,
        hooksRef := defaultHooksRef }
      (PyVal.str "d") ++ [⟨9, 1, PyVal.str "d"⟩] :=
  (shared_default_hooks_list [[]] 0 1
    (PyVal.str "A") (PyVal.str "E") (PyVal.str "B")
    (PyVal.str "C") (PyVal.str "F") (PyVal.str "D") 1 1
    { objId := 0, from_state := PyVal.str "A", on_event := PyVal.str "E",
      to_state := PyVal.str "B", probability := 1,
      hooksRef := defaultHooksRef }
    { objId := 1, from_state := PyVal.str "C", on_event := PyVal.str "F",
      to_state := PyVal.str "D", probability := 1,
      hooksRef := defaultHooksRef }
    9 (PyVal.str "d") rfl rfl (by decide)).1

/-- A successfully constructed machine starts with `current` equal to
the initial state, empty `previous`/`next` and no event hooks. -/
theorem fsmInit_ok_shape (raw : RawFSM) (b : FSM)
    (hb : fsmInit raw = .ok b) :
    b.current = b.initial_state ∧ b.previous = none ∧ b.next = none ∧
      b.event_hooks = [] := by
  cases hr : raw.rules with
  | missing => simp [fsmInit, hr] at hb
  | notASet => simp [fsmInit, hr] at hb
  | aSet members =>
    cases hck : checkMembers members with
    | error e => simp [fsmInit, hr, hck] at hb
    | ok ts =>
      cases hps : probSumOk ts with
      | false => simp [fsmInit, hr, hck, hps] at hb
      | true =>
        cases hin : raw.initial_state with
        | invalid => simp [fsmInit, hr, hck, hps, hin] at hb
        | sval v =>
          simp [fsmInit, hr, hck, hps, hin] at hb
          subst hb
          exact ⟨rfl, rfl, rfl, rfl⟩

/-- Decoding inverts the enum-tagging encoding whenever the registry
covers the value. -/
theorem unpackVal_packVal (reg : String → Bool) (v : Option PyVal)
    (hreg : regOk reg v) :
    unpackVal reg (packVal v) = .ok v := by
  cases v with
  | none => rfl
  | some w =>
    cases w with
    | str s => rfl
    | enum c n =>
      unfold regOk at hreg
      simp [packVal, unpackVal, hreg]

/-- C10 (confirmed): `FSM.unpack` never reads the serialized rule set:
its result is unchanged under arbitrary replacement of the packed
`rules` entry, and the machine it returns carries exactly the rules the
concrete class itself defines (those `cls()` builds). -/
theorem unpack_ignores_packed_rules (raw : RawFSM) (d : PackedFSM)
    (reg : String → Bool) (store : Store)
    (th : List (Transition × List Nat)) (eh : List (PyVal × List Nat))
    (rulesA rulesB : List PackedTransition) :
    fsmUnpack raw { d with rules := rulesA } reg store th eh =
      fsmUnpack raw { d with rules := rulesB } reg store th eh
  ∧ (∀ (base fsm1 : FSM) (s : Store), fsmInit raw = .ok base →
       fsmUnpack raw d reg store th eh = .ok (fsm1, s) →
       fsm1.rules = base.rules) := by
  constructor
  · rfl
  · intro base fsm1 s hbase hun
    unfold fsmUnpack at hun
    rw [hbase] at hun
    simp only [bind, Except.bind] at hun
    cases hth : attachTransitionHooks base store th with
    | error e => rw [hth] at hun; cases hun
    | ok s1 =>
      rw [hth] at hun
      cases hi : unpackVal reg d.initial_state with
      | error e => rw [hi] at hun; cases hun
      | ok i =>
        rw [hi] at hun
        cases hc : unpackVal reg d.current with
        | error e => rw [hc] at hun; cases hun
        | ok c =>
          rw [hc] at hun
          cases hp : unpackVal reg d.previous with
          | error e => rw [hp] at hun; cases hun
          | ok p =>
            rw [hp] at hun
            cases hn : unpackVal reg d.next with
            | error e => rw [hn] at hun; cases hun
            | ok n =>
              rw [hn] at hun
              simp only [Except.ok.injEq, Prod.mk.injEq] at hun
              rw [← hun.1]

/-- C10 (witness): unpacking bytes whose serialized rules entry differs
from the class's rules still yields the class's rules. -/
theorem unpack_ignores_packed_rules_witness :
    fsmUnpack { rules := RulesAttr.aSet [], initial_state := .sval (PyVal.str "A") }
        { rules := [{ from_state := PackedVal.strv "X",
                      to_state := PackedVal.strv "Y",
                      on_event := PackedVal.strv "Z", probability := 1 }],
          initial_state := PackedVal.strv "A", current := PackedVal.strv "B",
          previous := PackedVal.nonev, next := PackedVal.nonev }
        (fun _ => false) [] [] [] =
      fsmUnpack { rules := RulesAttr.aSet [], initial_state := .sval (PyVal.str "A") }
        { rules := [],
          initial_state := PackedVal.strv "A", current := PackedVal.strv "B",
          previous := PackedVal.nonev, next := PackedVal.nonev }
        (fun _ => false) [] [] []
  ∧ FSM.rules { rules := [], initial_state := some (PyVal.str "A"),
                current := some (PyVal.str "B"), previous := none, next := none,
                event_hooks := [] } =
      FSM.rules { rules := [], initial_state := some (PyVal.str "A"),
                  current := some (PyVal.str "A"), previous := none, next := none,
                  event_hooks := [] } :=
  ⟨(unpack_ignores_packed_rules
      { rules := RulesAttr.aSet [], initial_state := .sval (PyVal.str "A") }
      { rules := [],
        initial_state := PackedVal.strv "A", current := PackedVal.strv "B",
        previous := PackedVal.nonev, next := PackedVal.nonev }
      (fun _ => false) [] [] []
      [{ from_state := PackedVal.strv "X", to_state := PackedVal.strv "Y",
         on_event := PackedVal.strv "Z", probability := 1 }] []).1,
   (unpack_ignores_packed_rules
      { rules := RulesAttr.aSet [], initial_state := .sval (PyVal.str "A") }
      { rules := [],
        initial_state := PackedVal.strv "A", current := PackedVal.strv "B",
        previous := PackedVal.nonev, next := PackedVal.nonev }
      (fun _ => false) [] [] [] [] []).2
     { rules := [], initial_state := some (PyVal.str "A"),
       current := some (PyVal.str "A"), previous := none, next := none,
       event_hooks := [] }
     { rules := [], initial_state := some (PyVal.str "A"),
       current := some (PyVal.str "B"), previous := none, next := none,
       event_hooks := [] }
     [] rfl rfl⟩

/-- C8 (confirmed): packing a machine and unpacking the result — with a
registry covering every enumerated value present in the four state
slots — yields a machine whose `current`, `previous`, `next` and
`initial_state` equal the original's by value; the wire form carries no
hooks, so with no hook arguments supplied the unpacked machine has an
empty event-hook registry and the Transition hook store is untouched. -/
theorem pack_unpack_roundtrip (raw : RawFSM) (base fsm0 : FSM)
    (reg : String → Bool) (store : Store)
    (hbase : fsmInit raw = .ok base)
    (h1 : regOk reg fsm0.initial_state) (h2 : regOk reg fsm0.current)
    (h3 : regOk reg fsm0.previous) (h4 : regOk reg fsm0.next) :
    fsmUnpack raw (fsmPack fsm0) reg store [] [] =
      .ok ({ rules := base.rules, initial_state := fsm0.initial_state,
             current := fsm0.current, previous := fsm0.previous,
             next := fsm0.next, event_hooks := [] }, store) := by
  obtain ⟨hc, hp, hn, hh⟩ := fsmInit_ok_shape raw base hbase
  simp only [fsmUnpack, hbase, bind, Except.bind, fsmPack,
    attachTransitionHooks,
    unpackVal_packVal reg fsm0.initial_state h1,
    unpackVal_packVal reg fsm0.current h2,
    unpackVal_packVal reg fsm0.previous h3,
    unpackVal_packVal reg fsm0.next h4,
    attachEventHooks, hh]

/-- C8 (witness): a machine with an enum current, an enum initial state,
a string previous, an empty next, and one registered event hook
round-trips under a registry containing the enum class; the hook does
not survive the trip. -/
theorem pack_unpack_roundtrip_witness :
    fsmUnpack { rules := RulesAttr.aSet [], initial_state := .sval (PyVal.str "A") }
        (fsmPack { rules := [], initial_state := some (PyVal.enum "State" 1),
                   current := some (PyVal.enum "State" 2),
                   previous := some (PyVal.str "X"), next := none,
                   event_hooks := [(PyVal.str "E", [3])] })
        (fun c => c == "State") [[7]] [] [] =
      .ok ({ rules := [], initial_state := some (PyVal.enum "State" 1),
             current := some (PyVal.enum "State" 2),
             previous := some (PyVal.str "X"), next := none,
             event_hooks := [] }, [[7]]) :=
  pack_unpack_roundtrip
    { rules := RulesAttr.aSet [], initial_state := .sval (PyVal.str "A") }
    { rules := [], initial_state := some (PyVal.str "A"),
      current := some (PyVal.str "A"), previous := none, next := none,
      event_hooks := [] }
    { rules := [], initial_state := some (PyVal.enum "State" 1),
      current := some (PyVal.enum "State" 2),
      previous := some (PyVal.str "X"), next := none,
      event_hooks := [(PyVal.str "E", [3])] }
    (fun c => c == "State") [[7]] rfl rfl rfl trivial trivial

/-- C4 (confirmed): with exactly one candidate for `(current, event)` and
no event hook returning exactly False, `input` deterministically sets
`previous` to the prior `current`, `current` to the candidate's declared
destination, clears `next`, returns the new `current`, and only then
invokes the selected Transition's hooks, in insertion order, with
`(transition, data)` — each invocation observing the machine already in
the new state.  Self-loops (destination = origin) are covered: no
hypothesis distinguishes them. -/
theorem single_candidate_input_commits (store : Store) (fsm : FSM)
    (event data : PyVal) (choice : ℚ) (ret : Nat → EventHookRet)
    (t : Transition)
    (hone : wouldFSM fsm event = [t])
    (hnc : ∀ h ∈ (lookupHooks fsm.event_hooks event).getD [],
       ret h ≠ EventHookRet.isFalse) :
    fsmInput store fsm event data choice ret = .ok
      ⟨some t.to_state,
       { fsm with previous := fsm.current, current := some t.to_state,
                  next := none },
       ((lookupHooks fsm.event_hooks event).getD []).map
           (fun h => LogEntry.eventHook h event
             (fsm.current, fsm.previous, some t.to_state) data)
         ++ (store.getD t.hooksRef []).map
           (fun h => LogEntry.transitionHook h t.objId
             (some t.to_state, fsm.current, none) data)⟩ := by
  cases hl : lookupHooks fsm.event_hooks event with
  | none =>
    simp [fsmInput, hone, hl, commitStep, snap, trigger]
  | some hooks =>
    have hany : hooks.any (fun h => ret h == EventHookRet.isFalse) = false := by
      rw [List.any_eq_false]
      intro h hh
      rw [hl] at hnc
      have := hnc h (by simpa using hh)
      simp [this]
    simp [fsmInput, hone, hl, hany, commitStep, snap, trigger]

/-- C4 (witness): a self-loop machine on state "A" with one registered
event hook that does not cancel: `input` commits the self-loop
(previous = current = "A"), then fires both transition hooks on the
already-updated machine. -/
theorem single_candidate_input_commits_witness :
    fsmInput [[], [5, 6]]
      { rules := [{ objId := 4, from_state := PyVal.str "A",
                    on_event := PyVal.str "E", to_state := PyVal.str "A",
                    probability := 1, hooksRef := 1 }],
        initial_state := some (PyVal.str "A"),
        current := some (PyVal.str "A"), previous := none, next := none,
        event_hooks := [(PyVal.str "E", [3])] }
      (PyVal.str "E") (PyVal.str "d") 0 (fun _ => EventHookRet.notFalse) =
    .ok
      ⟨some (PyVal.str "A"),
       { rules := [{ objId := 4, from_state := PyVal.str "A",
                     on_event := PyVal.str "E", to_state := PyVal.str "A",
                     probability := 1, hooksRef := 1 }],
         initial_state := some (PyVal.str "A"),
         current := some (PyVal.str "A"),
         previous := some (PyVal.str "A"), next := none,
         event_hooks := [(PyVal.str "E", [3])] },
       [LogEntry.eventHook 3 (PyVal.str "E")
          (some (PyVal.str "A"), none, some (PyVal.str "A")) (PyVal.str "d"),
        LogEntry.transitionHook 5 4
          (some (PyVal.str "A"), some (PyVal.str "A"), none) (PyVal.str "d"),
        LogEntry.transitionHook 6 4
          (some (PyVal.str "A"), some (PyVal.str "A"), none) (PyVal.str "d")]⟩ :=
  single_candidate_input_commits [[], [5, 6]]
    { rules := [{ objId := 4, from_state := PyVal.str "A",
                  on_event := PyVal.str "E", to_state := PyVal.str "A",
                  probability := 1, hooksRef := 1 }],
      initial_state := some (PyVal.str "A"),
      current := some (PyVal.str "A"), previous := none, next := none,
      event_hooks := [(PyVal.str "E", [3])] }
    (PyVal.str "E") (PyVal.str "d") 0 (fun _ => EventHookRet.notFalse)
    { objId := 4, from_state := PyVal.str "A", on_event := PyVal.str "E",
      to_state := PyVal.str "A", probability := 1, hooksRef := 1 }
    rfl (by decide)

/-- C3 (counterexample): a cancelling event hook leaves the TENTATIVE
destination in `next`: after the cancelled `input` call, `next` is
`some "B"`, not null — the code returns early without clearing it —
refuting "the tentative next is discarded (next is null after the
call)".  Everything else the claim states does hold here: `current` and
`previous` are unchanged, the hook ran once with `(event, fsm, data)`,
and no transition hook fired. -/
theorem cancelled_event_next_not_cleared :
    fsmInput [[], [5]]
      { rules := [{ objId := 0, from_state := PyVal.str "A",
                    on_event := PyVal.str "E", to_state := PyVal.str "B",
                    probability := 1, hooksRef := 1 }],
        initial_state := some (PyVal.str "A"),
        current := some (PyVal.str "A"), previous := none, next := none,
        event_hooks := [(PyVal.str "E", [7])] }
      (PyVal.str "E") (PyVal.str "d") 0 (fun _ => EventHookRet.isFalse) =
    .ok
      ⟨some (PyVal.str "A"),
       { rules := [{ objId := 0, from_state := PyVal.str "A",
                     on_event := PyVal.str "E", to_state := PyVal.str "B",
                     probability := 1, hooksRef := 1 }],
         initial_state := some (PyVal.str "A"),
         current := some (PyVal.str "A"), previous := none,
         next := some (PyVal.str "B"),
         event_hooks := [(PyVal.str "E", [7])] },
       [LogEntry.eventHook 7 (PyVal.str "E")
          (some (PyVal.str "A"), none, some (PyVal.str "B")) (PyVal.str "d")]⟩
  ∧ some (PyVal.str "B") ≠ (none : Option PyVal) := by
  exact ⟨rfl, by decide⟩

/-- C3 (amended): when any event hook registered for the event returns
exactly False (and the multi-candidate draw did not already raise), the
event is cancelled: `input` returns `current` unchanged, `previous` is
unchanged, no Transition-level hook runs, and every registered event
hook is invoked in insertion order with `(event, fsm, data)` — but the
tentative `next` is NOT discarded: the early return skips the clearing,
so `next` still holds the selected candidate's destination. -/
theorem cancelled_event_keeps_state (store : Store) (fsm : FSM)
    (event data : PyVal) (choice : ℚ) (ret : Nat → EventHookRet)
    (hooks : List Nat)
    (hreg : lookupHooks fsm.event_hooks event = some hooks)
    (hcancel : ∃ h ∈ hooks, ret h = EventHookRet.isFalse)
    (hnomiss : ¬(2 ≤ (wouldFSM fsm event).length ∧
       selectCum choice (cumBreaks 0 (wouldFSM fsm event)) = none)) :
    fsmInput store fsm event data choice ret = .ok
      ⟨fsm.current, { fsm with next := tentativeNext fsm event choice },
       hooks.map (fun h => LogEntry.eventHook h event
         (fsm.current, fsm.previous, tentativeNext fsm event choice) data)⟩ := by
  have hany : hooks.any (fun h => ret h == EventHookRet.isFalse) = true := by
    rw [List.any_eq_true]
    obtain ⟨h, hh, hr⟩ := hcancel
    exact ⟨h, hh, by simp [hr]⟩
  cases hw : wouldFSM fsm event with
  | nil => simp [fsmInput, hw, hreg, hany, tentativeNext, snap]
  | cons t1 rest =>
    cases rest with
    | nil => simp [fsmInput, hw, hreg, hany, tentativeNext, snap]
    | cons t2 rest2 =>
      cases hsel : selectCum choice (cumBreaks 0 (t1 :: t2 :: rest2)) with
      | none =>
        refine absurd ⟨?_, ?_⟩ hnomiss
        · rw [hw]; simp
        · rw [hw]; exact hsel
      | some t =>
        simp [fsmInput, hw, hreg, hany, tentativeNext, hsel, snap]

/-- C3 (witness): the amended cancellation behaviour at the concrete
single-candidate machine. -/
theorem cancelled_event_keeps_state_witness :
    fsmInput [[], [5]]
      { rules := [{ objId := 0, from_state := PyVal.str "A",
                    on_event := PyVal.str "E", to_state := PyVal.str "B",
                    probability := 1, hooksRef := 1 }],
        initial_state := some (PyVal.str "A"),
        current := some (PyVal.str "A"), previous := none, next := none,
        event_hooks := [(PyVal.str "E", [7])] }
      (PyVal.str "E") (PyVal.str "d") 0 (fun _ => EventHookRet.isFalse) =
    .ok
      ⟨some (PyVal.str "A"),
       { rules := [{ objId := 0, from_state := PyVal.str "A",
                     on_event := PyVal.str "E", to_state := PyVal.str "B",
                     probability := 1, hooksRef := 1 }],
         initial_state := some (PyVal.str "A"),
         current := some (PyVal.str "A"), previous := none,
         next := tentativeNext
           { rules := [{ objId := 0, from_state := PyVal.str "A",
                         on_event := PyVal.str "E", to_state := PyVal.str "B",
                         probability := 1, hooksRef := 1 }],
             initial_state := some (PyVal.str "A"),
             current := some (PyVal.str "A"), previous := none, next := none,
             event_hooks := [(PyVal.str "E", [7])] }
           (PyVal.str "E") 0,
         event_hooks := [(PyVal.str "E", [7])] },
       [LogEntry.eventHook 7 (PyVal.str "E")
          (some (PyVal.str "A"), none,
           tentativeNext
             { rules := [{ objId := 0, from_state := PyVal.str "A",
                           on_event := PyVal.str "E", to_state := PyVal.str "B",
                           probability := 1, hooksRef := 1 }],
               initial_state := some (PyVal.str "A"),
               current := some (PyVal.str "A"), previous := none, next := none,
               event_hooks := [(PyVal.str "E", [7])] }
             (PyVal.str "E") 0)
          (PyVal.str "d")]⟩ :=
  cancelled_event_keeps_state [[], [5]]
    { rules := [{ objId := 0, from_state := PyVal.str "A",
                  on_event := PyVal.str "E", to_state := PyVal.str "B",
                  probability := 1, hooksRef := 1 }],
      initial_state := some (PyVal.str "A"),
      current := some (PyVal.str "A"), previous := none, next := none,
      event_hooks := [(PyVal.str "E", [7])] }
    (PyVal.str "E") (PyVal.str "d") 0 (fun _ => EventHookRet.isFalse)
    [7] rfl (by decide) (fun hx => absurd hx.1 (by decide))

/-- When the draw is at or beyond the whole cumulative mass (started at
accumulator `a`), the selection loop falls through: nothing is chosen. -/
theorem selectCum_none_of_sum_le (choice : ℚ) (ts : List Transition) :
    ∀ a : ℚ, (∀ t ∈ ts, 0 ≤ t.probability) →
      a + (ts.map (fun t => t.probability)).sum ≤ choice →
      selectCum choice (cumBreaks a ts) = none := by
  induction ts with
  | nil => intro a _ _; rfl
  | cons t rest ih =>
    intro a hnn hle
    simp only [List.map_cons, List.sum_cons] at hle
    have hrest : 0 ≤ (rest.map (fun t => t.probability)).sum := by
      apply List.sum_nonneg
      intro x hx
      obtain ⟨u, hu, rfl⟩ := List.mem_map.mp hx
      exact hnn u (List.mem_cons_of_mem t hu)
    have hstep : a + t.probability ≤ choice := by linarith
    unfold cumBreaks selectCum
    rw [if_neg (not_lt.mpr hstep)]
    exact ih (a + t.probability)
      (fun u hu => hnn u (List.mem_cons_of_mem t hu)) (by linarith)

/-- The selection loop picks exactly the first candidate whose
cumulative breakpoint strictly exceeds the draw. -/
theorem selectCum_eq_get (choice : ℚ) (ts : List Transition) :
    ∀ (a : ℚ) (i : Nat) (hi : i < ts.length),
      (∀ j, j < i →
        a + ((ts.take (j+1)).map (fun t => t.probability)).sum ≤ choice) →
      choice < a + ((ts.take (i+1)).map (fun t => t.probability)).sum →
      selectCum choice (cumBreaks a ts) = some (ts.get ⟨i, hi⟩) := by
  induction ts with
  | nil => intro a i hi _ _; cases hi
  | cons t rest ih =>
    intro a i hi hbefore hhit
    cases i with
    | zero =>
      simp only [List.take_succ_cons, List.take_zero, List.map_cons,
        List.map_nil, List.sum_cons, List.sum_nil, add_zero] at hhit
      unfold cumBreaks selectCum
      rw [if_pos hhit]
      rfl
    | succ n =>
      have h0 := hbefore 0 (Nat.succ_pos n)
      simp only [List.take_succ_cons, List.take_zero, List.map_cons,
        List.map_nil, List.sum_cons, List.sum_nil, add_zero] at h0
      unfold cumBreaks selectCum
      rw [if_neg (not_lt.mpr h0)]
      have hgoal := ih (a + t.probability) n (Nat.lt_of_succ_lt_succ hi)
        (fun j hj => by
          have := hbefore (j+1) (Nat.succ_lt_succ hj)
          simpa [List.take_succ_cons, List.sum_cons, add_assoc] using this)
        (by
          have := hhit
          simpa [List.take_succ_cons, List.sum_cons, add_assoc] using this)
      simpa using hgoal

/-- With several candidates and a draw landing strictly inside the
cumulative mass, `input` (with no event hook registered) commits the
selected Transition. -/
theorem input_multi_commit (store : Store) (fsm : FSM) (event data : PyVal)
    (choice : ℚ) (ret : Nat → EventHookRet) (t : Transition)
    (hlen : 2 ≤ (wouldFSM fsm event).length)
    (hnohooks : lookupHooks fsm.event_hooks event = none)
    (hsel : selectCum choice (cumBreaks 0 (wouldFSM fsm event)) = some t) :
    fsmInput store fsm event data choice ret = .ok
      ⟨some t.to_state,
       { fsm with previous := fsm.current, current := some t.to_state,
                  next := none },
       (store.getD t.hooksRef []).map
         (fun h => LogEntry.transitionHook h t.objId
           (some t.to_state, fsm.current, none) data)⟩ := by
  cases hw : wouldFSM fsm event with
  | nil => rw [hw] at hlen; simp at hlen
  | cons t1 l1 =>
    cases l1 with
    | nil => rw [hw] at hlen; simp at hlen
    | cons t2 l2 =>
      rw [hw] at hsel
      simp [fsmInput, hw, hsel, hnohooks, commitStep, snap, trigger]

/-- With several candidates and a draw at or beyond the cumulative mass,
the selection loop leaves `transition = None` and the subsequent
`transition.to_state` raises `AttributeError`. -/
theorem input_multi_miss (store : Store) (fsm : FSM) (event data : PyVal)
    (choice : ℚ) (ret : Nat → EventHookRet)
    (hlen : 2 ≤ (wouldFSM fsm event).length)
    (hsel : selectCum choice (cumBreaks 0 (wouldFSM fsm event)) = none) :
    fsmInput store fsm event data choice ret = .error PyErr.attributeError := by
  cases hw : wouldFSM fsm event with
  | nil => rw [hw] at hlen; simp at hlen
  | cons t1 l1 =>
    cases l1 with
    | nil => rw [hw] at hlen; simp at hlen
    | cons t2 l2 =>
      rw [hw] at hsel
      simp [fsmInput, hw, hsel]

/-- C1 (counterexample): two candidates of probability 1/4 each (total
1/2) and a draw of 1/2 in the uncovered tail: `input` RAISES an
AttributeError (`transition` is still `None` when `transition.to_state`
executes) instead of returning `current` unchanged, refuting "no
candidate is selected and input returns current unchanged (the event is
silently inert, with no error raised)". -/
theorem uncovered_tail_raises :
    fsmInput []
      { rules := [{ objId := 1, from_state := PyVal.str "A",
                    on_event := PyVal.str "E", to_state := PyVal.str "C",
                    probability := 1/4, hooksRef := 0 },
                  { objId := 2, from_state := PyVal.str "A",
                    on_event := PyVal.str "E", to_state := PyVal.str "D",
                    probability := 1/4, hooksRef := 0 }],
        initial_state := some (PyVal.str "A"),
        current := some (PyVal.str "A"), previous := none, next := none,
        event_hooks := [] }
      (PyVal.str "E") (PyVal.str "d") (1/2) (fun _ => EventHookRet.notFalse) =
      .error PyErr.attributeError := by
  norm_num [fsmInput, wouldFSM, candidates, candidatesKey, cumBreaks, selectCum]

/-- C1 (amended): with more than one candidate, `input` builds cumulative
probability breakpoints over the candidates in stored order and selects
the first whose cumulative probability strictly exceeds the uniform
draw, committing its destination; but when the draw falls at or beyond
the candidates' total mass (the uncovered tail of a sub-1.0 total), no
candidate is selected and `input` RAISES an AttributeError — it does not
return `current` unchanged. -/
theorem weighted_selection_and_uncovered_tail (store : Store) (fsm : FSM)
    (event data : PyVal) (choice : ℚ) (ret : Nat → EventHookRet)
    (hlen : 2 ≤ (wouldFSM fsm event).length)
    (hnn : ∀ t ∈ wouldFSM fsm event, 0 ≤ t.probability)
    (hnohooks : lookupHooks fsm.event_hooks event = none) :
    (∀ (i : Nat) (hi : i < (wouldFSM fsm event).length),
       (∀ j, j < i →
         (((wouldFSM fsm event).take (j+1)).map
           (fun t => t.probability)).sum ≤ choice) →
       choice < (((wouldFSM fsm event).take (i+1)).map
           (fun t => t.probability)).sum →
       fsmInput store fsm event data choice ret = .ok
         ⟨some ((wouldFSM fsm event).get ⟨i, hi⟩).to_state,
          { fsm with previous := fsm.current,
                     current := some ((wouldFSM fsm event).get ⟨i, hi⟩).to_state,
                     next := none },
          (store.getD ((wouldFSM fsm event).get ⟨i, hi⟩).hooksRef []).map
            (fun h => LogEntry.transitionHook h
              ((wouldFSM fsm event).get ⟨i, hi⟩).objId
              (some ((wouldFSM fsm event).get ⟨i, hi⟩).to_state,
               fsm.current, none)
              data)⟩)
  ∧ (((wouldFSM fsm event).map (fun t => t.probability)).sum ≤ choice →
       fsmInput store fsm event data choice ret =
         .error PyErr.attributeError) := by
  constructor
  · intro i hi hbefore hhit
    apply input_multi_commit store fsm event data choice ret _ hlen hnohooks
    apply selectCum_eq_get choice (wouldFSM fsm event) 0 i hi
    · intro j hj
      rw [zero_add]
      exact hbefore j hj
    · rw [zero_add]
      exact hhit
  · intro htail
    apply input_multi_miss store fsm event data choice ret hlen
    apply selectCum_none_of_sum_le choice (wouldFSM fsm event) 0 hnn
    rw [zero_add]
    exact htail

/-- C1 (witness): two candidates at probability 1/4 each and a draw of
3/10: the first breakpoint (1/4) does not exceed the draw, the second
(1/2) does, so the second candidate commits and its hook fires. -/
theorem weighted_selection_witness :
    fsmInput [[8], [9]]
      { rules := [{ objId := 1, from_state := PyVal.str "A",
                    on_event := PyVal.str "E", to_state := PyVal.str "C",
                    probability := 1/4, hooksRef := 0 },
                  { objId := 2, from_state := PyVal.str "A",
                    on_event := PyVal.str "E", to_state := PyVal.str "D",
                    probability := 1/4, hooksRef := 1 }],
        initial_state := some (PyVal.str "A"),
        current := some (PyVal.str "A"), previous := none, next := none,
        event_hooks := [] }
      (PyVal.str "E") (PyVal.str "d") (3/10) (fun _ => EventHookRet.notFalse) =
    .ok
      ⟨some (PyVal.str "D"),
       { rules := [{ objId := 1, from_state := PyVal.str "A",
                     on_event := PyVal.str "E", to_state := PyVal.str "C",
                     probability := 1/4, hooksRef := 0 },
                   { objId := 2, from_state := PyVal.str "A",
                     on_event := PyVal.str "E", to_state := PyVal.str "D",
                     probability := 1/4, hooksRef := 1 }],
         initial_state := some (PyVal.str "A"),
         current := some (PyVal.str "D"),
         previous := some (PyVal.str "A"), next := none,
         event_hooks := [] },
       [LogEntry.transitionHook 9 2
          (some (PyVal.str "D"), some (PyVal.str "A"), none)
          (PyVal.str "d")]⟩ :=
  (weighted_selection_and_uncovered_tail [[8], [9]]
    { rules := [{ objId := 1, from_state := PyVal.str "A",
                  on_event := PyVal.str "E", to_state := PyVal.str "C",
                  probability := 1/4, hooksRef := 0 },
                { objId := 2, from_state := PyVal.str "A",
                  on_event := PyVal.str "E", to_state := PyVal.str "D",
                  probability := 1/4, hooksRef := 1 }],
      initial_state := some (PyVal.str "A"),
      current := some (PyVal.str "A"), previous := none, next := none,
      event_hooks := [] }
    (PyVal.str "E") (PyVal.str "d") (3/10) (fun _ => EventHookRet.notFalse)
    (by decide)
    (by
      intro t ht
      simp [wouldFSM, candidates, candidatesKey] at ht
      rcases ht with rfl | rfl <;> norm_num)
    rfl).1 1 (by decide)
    (by
      intro j hj
      have hj0 : j = 0 := Nat.lt_one_iff.mp hj
      subst hj0
      norm_num [wouldFSM, candidates, candidatesKey])
    (by norm_num [wouldFSM, candidates, candidatesKey])

/-- C2 (witness): the equality characterization evaluated at concrete
Transitions — a Transition is equal to itself (same identity), and two
objects with equal triples have equal hashes. -/
theorem transition_hash_by_triple_witness :
    pyEq { objId := 6, from_state := PyVal.str "A", on_event := PyVal.str "E",
           to_state := PyVal.str "B", probability := 1, hooksRef := 0 }
         { objId := 6, from_state := PyVal.str "A", on_event := PyVal.str "E",
           to_state := PyVal.str "B", probability := 1, hooksRef := 0 } = true :=
  (transition_hash_by_triple_eq_by_identity
    { objId := 6, from_state := PyVal.str "A", on_event := PyVal.str "E",
      to_state := PyVal.str "B", probability := 1, hooksRef := 0 }
    { objId := 6, from_state := PyVal.str "A", on_event := PyVal.str "E",
      to_state := PyVal.str "B", probability := 1, hooksRef := 0 }).2.mpr rfl

/-- C6 (witness): a NEGATIVE probability, also outside `(0, 1]`, is
accepted and stored unchanged. -/
theorem transition_probability_witness :
    transitionInit 3 (.sval (PyVal.str "A")) (.sval (PyVal.str "E"))
        (.sval (PyVal.str "B")) (.flt (-2)) 7 =
      .ok { objId := 3, from_state := PyVal.str "A", on_event := PyVal.str "E",
            to_state := PyVal.str "B", probability := -2, hooksRef := 7 } :=
  (transition_probability_type_checked_only 3
    (PyVal.str "A") (PyVal.str "E") (PyVal.str "B") (-2) 7).1
